import Mathlib

/-!
Shallow embedding of the function utilities in src/functions-tasks.js.

JavaScript values that the utilities manipulate are modelled by the
inductive type JSValue (undefined, null, booleans, integers, strings).
Functions that may throw are modelled as Except-valued functions, the
thrown JavaScript value being the error component.  A stateful or
non-deterministic zero-argument JavaScript function is modelled as a
stream of outcomes indexed by its own invocation count.
-/

inductive JSValue where
  | undefined : JSValue
  | null : JSValue
  | bool (b : Bool) : JSValue
  | num (n : Int) : JSValue
  | str (s : String) : JSValue
deriving DecidableEq, Repr

/-- One hexadecimal digit, lower case, as used by JSON \uXXXX escapes. -/
def hexDigit (n : Nat) : String :=
  if n < 10 then toString n
  else if n = 10 then "a"
  else if n = 11 then "b"
  else if n = 12 then "c"
  else if n = 13 then "d"
  else if n = 14 then "e"
  else "f"

/-- The escape JSON.stringify applies to a single character inside a string. -/
def jsonEscapeChar (c : Char) : String :=
  if c = '"' then "\\\""
  else if c = '\\' then "\\\\"
  else if c = '\n' then "\\n"
  else if c = '\r' then "\\r"
  else if c = '\t' then "\\t"
  else if c = Char.ofNat 8 then "\\b"
  else if c = Char.ofNat 12 then "\\f"
  else if c.toNat < 32 then "\\u00" ++ hexDigit (c.toNat / 16) ++ hexDigit (c.toNat % 16)
  else String.singleton c

/-- JSON string literal for s, i.e. JSON.stringify applied to a string. -/
def jsonQuote (s : String) : String :=
  "\"" ++ String.join (s.toList.map jsonEscapeChar) ++ "\""

/-- JSON.stringify on a JSValue; none models the JavaScript undefined result
that JSON.stringify returns on an undefined argument. -/
def jsonStringify : JSValue → Option String
  | JSValue.undefined => none
  | JSValue.null => some "null"
  | JSValue.bool b => some (cond b "true" "false")
  | JSValue.num n => some (toString n)
  | JSValue.str s => some (jsonQuote s)

/-- Array.prototype.join with separator ",": an undefined element (none)
contributes the empty string. -/
def joinComma : List (Option String) → String
  | [] => ""
  | [x] => x.getD ""
  | x :: y :: rest => x.getD "" ++ "," ++ joinComma (y :: rest)

/-!  memoize (src/functions-tasks.js lines 120-130)

The closure state of the wrapper returned by memoize(func) is the pair
(cachedResult, isCached); cachedResult starts out as the JavaScript
undefined of an uninitialised let binding.  The wrapped func is modelled
as a stream outcomes of its successive invocations, and the number of
invocations of func made so far is threaded through as a counter. -/

structure MemoState where
  cachedResult : JSValue
  isCached : Bool
deriving DecidableEq, Repr

/-- The closure state created by one call of memoize(func). -/
def memoInit : MemoState := ⟨JSValue.undefined, false⟩

/-- One invocation of the wrapper returned by memoize(func): takes the count
of invocations of func made so far and the closure state, returns the
wrapper's outcome, the new count and the new closure state. -/
def memoizeCall (func : Nat → Except JSValue JSValue) (calls : Nat) (s : MemoState) :
    Except JSValue JSValue × Nat × MemoState :=
  if s.isCached then
    (Except.ok s.cachedResult, calls, s)
  else
    match func calls with
    | Except.ok v => (Except.ok v, calls + 1, ⟨v, true⟩)
    | Except.error e => (Except.error e, calls + 1, s)

/-- n successive invocations of the wrapper returned by memoize(func),
starting from the fresh closure state: the list of the n outcomes, the total
number of invocations of func, and the final closure state. -/
def memoizeRun (func : Nat → Except JSValue JSValue) :
    Nat → List (Except JSValue JSValue) × Nat × MemoState
  | 0 => ([], 0, memoInit)
  | n + 1 =>
    match memoizeRun func n with
    | (rs, c, s) =>
      match memoizeCall func c s with
      | (r, c2, s2) => (rs ++ [r], c2, s2)

/-!  retry (src/functions-tasks.js lines 147-159) -/

/-- The for loop of the wrapper returned by retry(func, attempts): fuel many
iterations remain, i is the number of invocations of func made so far, and
lastError is the current value of the lastError binding (initially the
JavaScript undefined of an uninitialised let).  Returns the wrapper's
outcome and the total number of invocations of func. -/
def retryLoop (func : Nat → Except JSValue JSValue) :
    Nat → Nat → JSValue → Except JSValue JSValue × Nat
  | 0, i, lastError => (Except.error lastError, i)
  | fuel + 1, i, _lastError =>
    match func i with
    | Except.ok v => (Except.ok v, i + 1)
    | Except.error e => retryLoop func fuel (i + 1) e

/-- One invocation of the wrapper returned by retry(func, attempts): the for
loop runs while i < attempts, hence attempts.toNat iterations. -/
def retryCall (func : Nat → Except JSValue JSValue) (attempts : Int) :
    Except JSValue JSValue × Nat :=
  retryLoop func attempts.toNat 0 JSValue.undefined

/-!  logger (src/functions-tasks.js lines 184-195)

Arguments of the wrapper are modelled as references into a heap of mutable
cells, so that the wrapped func can mutate an argument object; a primitive
argument is a cell func leaves unchanged.  funcName stands for func.name.
The invocations the wrapper makes of logFunc and func are recorded in an
event trace; logFunc is a function of the message that either returns
normally or throws a JavaScript value. -/

abbrev Heap := List JSValue

/-- Reading heap cell r; out of range reads give undefined as in JavaScript. -/
def heapGet (h : Heap) (r : Nat) : JSValue :=
  h.getD r JSValue.undefined

/-- The argsString binding of the wrapper:
args.map((arg) => JSON.stringify(arg)).join(",") over the argument cells. -/
def loggerArgsString (h : Heap) (args : List Nat) : String :=
  joinComma (args.map fun r => jsonStringify (heapGet h r))

/-- The message of the first logFunc call. -/
def loggerStartMsg (funcName : String) (h : Heap) (args : List Nat) : String :=
  funcName ++ "(" ++ loggerArgsString h args ++ ") starts"

/-- The message of the second logFunc call. -/
def loggerEndMsg (funcName : String) (h : Heap) (args : List Nat) : String :=
  funcName ++ "(" ++ loggerArgsString h args ++ ") ends"

/-- An observable action of the wrapper returned by logger(func, logFunc):
an invocation of logFunc with its message, or an invocation of func. -/
inductive LoggerEvent where
  | logCall (msg : String) : LoggerEvent
  | funcCall : LoggerEvent
deriving DecidableEq, Repr

/-- One invocation of the wrapper returned by logger(func, logFunc) on the
argument cells args over heap h: outcome, final heap and event trace.
argsString is computed once, before the first logFunc call, and an exception
thrown by logFunc or func propagates, skipping the rest of the body. -/
def loggerRun (funcName : String)
    (func : List Nat → Heap → Except JSValue JSValue × Heap)
    (logFunc : String → Except JSValue Unit)
    (args : List Nat) (h : Heap) :
    Except JSValue JSValue × Heap × List LoggerEvent :=
  match logFunc (loggerStartMsg funcName h args) with
  | Except.error e =>
    (Except.error e, h, [LoggerEvent.logCall (loggerStartMsg funcName h args)])
  | Except.ok _ =>
    match func args h with
    | (Except.error e, h2) =>
      (Except.error e, h2,
        [LoggerEvent.logCall (loggerStartMsg funcName h args), LoggerEvent.funcCall])
    | (Except.ok v, h2) =>
      match logFunc (loggerEndMsg funcName h args) with
      | Except.error e =>
        (Except.error e, h2,
          [LoggerEvent.logCall (loggerStartMsg funcName h args), LoggerEvent.funcCall,
            LoggerEvent.logCall (loggerEndMsg funcName h args)])
      | Except.ok _ =>
        (Except.ok v, h2,
          [LoggerEvent.logCall (loggerStartMsg funcName h args), LoggerEvent.funcCall,
            LoggerEvent.logCall (loggerEndMsg funcName h args)])

/-!  getPolynom (src/functions-tasks.js lines 93-104)

Coefficients and the point of evaluation are modelled as integers. -/

/-- The inner function pol(x): coefficients.reduce over (sum, coeff, index)
accumulating sum + coeff * x ** (coefficients.length - index - 1) from 0. -/
def pol (coefficients : List Int) (x : Int) : Int :=
  coefficients.enum.foldl
    (fun sum p => sum + p.2 * x ^ (coefficients.length - p.1 - 1)) 0

/-- getPolynom(...coefficients): null for zero coefficients, otherwise the
evaluator pol; null is modelled as none. -/
def getPolynom (coefficients : List Int) : Option (Int → Int) :=
  if coefficients.length = 0 then none
  else some (pol coefficients)

/-- The spec's polynomial c0*x^(n-1) + c1*x^(n-2) + ... + c(n-1), written
directly from the spec's formula for comparison with pol. -/
def specPolyVal : List Int → Int → Int
  | [], _ => 0
  | c :: rest, x => c * x ^ rest.length + specPolyVal rest x

/-!  partialUsingArguments (src/functions-tasks.js lines 210-214) -/

/-- partialUsingArguments(fn, ...args1) returns (...args2) => fn(...args1, ...args2). -/
def partialUsingArguments (fn : List JSValue → JSValue) (args1 : List JSValue) :
    List JSValue → JSValue :=
  fun args2 => fn (args1 ++ args2)

/-!  getIdGeneratorFunction (src/functions-tasks.js lines 233-240) -/

/-- The closure state created by one call of getIdGeneratorFunction(startFrom):
the value binding, initially startFrom. -/
def getIdGeneratorFunction (startFrom : Int) : Int := startFrom

/-- One invocation of a generator: result = value; value += 1; return result. -/
def idGenCall (value : Int) : Int × Int := (value, value + 1)

/-- An interleaved run of two independently constructed generators with
closure states a and b: each schedule entry picks a generator (true for the
first), and the list of results is returned in call order. -/
def runSchedule (a b : Int) : List Bool → List Int
  | [] => []
  | true :: rest =>
    match idGenCall a with
    | (r, a2) => r :: runSchedule a2 b rest
  | false :: rest =>
    match idGenCall b with
    | (r, b2) => r :: runSchedule a b2 rest

/-!  Helper lemmas -/

/-- Once the first invocation of func has succeeded with v, every run of the
memoized wrapper returns v each time and func is never invoked again. -/
theorem memoizeRun_ok (func : Nat → Except JSValue JSValue) (v : JSValue)
    (h0 : func 0 = Except.ok v) (n : Nat) :
    memoizeRun func (n + 1) = (List.replicate (n + 1) (Except.ok v), 1, ⟨v, true⟩) := by
  induction n with
  | zero => simp [memoizeRun, memoizeCall, memoInit, h0]
  | succ m ih =>
    rw [memoizeRun, ih]
    simp [memoizeCall, List.replicate_succ']

/-- If the loop of retry reaches a successful invocation of func within its
fuel, it returns that result immediately. -/
theorem retryLoop_ok (func : Nat → Except JSValue JSValue) (fuel : Nat) :
    ∀ (i k : Nat) (x v : JSValue), i ≤ k → k < i + fuel →
      (∀ j, i ≤ j → j < k → ∃ e, func j = Except.error e) →
      func k = Except.ok v →
      retryLoop func fuel i x = (Except.ok v, k + 1) := by
  induction fuel with
  | zero => intro i k x v hik hk _ _; omega
  | succ f ih =>
    intro i k x v hik hk herr hok
    rcases Nat.eq_or_lt_of_le hik with heq | hlt
    · subst heq
      simp [retryLoop, hok]
    · obtain ⟨e, he⟩ := herr i le_rfl hlt
      simp only [retryLoop, he]
      exact ih (i + 1) k e v hlt (by omega) (fun j hj1 hj2 => herr j (by omega) hj2) hok

/-- If every invocation of func within the fuel of the loop of retry throws,
the loop rethrows the error of the last invocation. -/
theorem retryLoop_fail (func : Nat → Except JSValue JSValue) (fuel : Nat) :
    ∀ (i : Nat) (x err : JSValue), 1 ≤ fuel →
      (∀ j, i ≤ j → j < i + fuel → ∃ e, func j = Except.error e) →
      func (i + fuel - 1) = Except.error err →
      retryLoop func fuel i x = (Except.error err, i + fuel) := by
  induction fuel with
  | zero => intro i x err h _ _; omega
  | succ f ih =>
    intro i x err _ herr hlast
    cases Nat.eq_zero_or_pos f with
    | inl hf0 =>
      subst hf0
      rw [show i + 1 - 1 = i by omega] at hlast
      simp [retryLoop, hlast]
    | inr hfpos =>
      obtain ⟨e, he⟩ := herr i le_rfl (by omega)
      simp only [retryLoop, he]
      have hrec := ih (i + 1) e err hfpos
        (fun j hj1 hj2 => herr j (by omega) (by omega))
        (by rw [show i + 1 + f - 1 = i + (f + 1) - 1 by omega]; exact hlast)
      rw [hrec, show i + 1 + f = i + (f + 1) by omega]

/-!  Claim theorems -/

/-- Claim C1: for every function func whose first invocation returns v, the
wrapper returned by memoize(func) invokes func exactly once across n >= 1
invocations, and every invocation of the wrapper returns that stored v. -/
theorem memoize_spec (func : Nat → Except JSValue JSValue) (v : JSValue) (n : Nat)
    (hn : 1 ≤ n) (h0 : func 0 = Except.ok v) :
    memoizeRun func n = (List.replicate n (Except.ok v), 1, ⟨v, true⟩) := by
  cases n with
  | zero => omega
  | succ m => exact memoizeRun_ok func v h0 m

theorem memoize_spec_witness :
    memoizeRun (fun _ => Except.ok (JSValue.num 5)) 3 =
      (List.replicate 3 (Except.ok (JSValue.num 5)), 1, ⟨JSValue.num 5, true⟩) :=
  memoize_spec (fun _ => Except.ok (JSValue.num 5)) (JSValue.num 5) 3 (by decide) rfl

/-- Claim C5: for every func whose first invocation throws e, the wrapper
returned by memoize(func) propagates e unchanged and leaves the cache unset
(the closure state is still the initial one), so the next invocation of the
wrapper invokes func again: after two wrapper invocations func has been
invoked twice, a successful second invocation is returned and cached, and a
second throw propagates again, still leaving the cache unset. -/
theorem memoize_error_first (func : Nat → Except JSValue JSValue) (e : JSValue)
    (h0 : func 0 = Except.error e) :
    memoizeRun func 1 = ([Except.error e], 1, memoInit) ∧
    (memoizeRun func 2).2.1 = 2 ∧
    (∀ v, func 1 = Except.ok v →
      memoizeRun func 2 = ([Except.error e, Except.ok v], 2, ⟨v, true⟩)) ∧
    (∀ e2, func 1 = Except.error e2 →
      memoizeRun func 2 = ([Except.error e, Except.error e2], 2, memoInit)) := by
  refine ⟨?_, ?_, ?_, ?_⟩
  · simp [memoizeRun, memoizeCall, memoInit, h0]
  · cases hf : func 1 with
    | ok v => simp [memoizeRun, memoizeCall, memoInit, h0, hf]
    | error e2 => simp [memoizeRun, memoizeCall, memoInit, h0, hf]
  · intro v h1
    simp [memoizeRun, memoizeCall, memoInit, h0, h1]
  · intro e2 h1
    simp [memoizeRun, memoizeCall, memoInit, h0, h1]

theorem memoize_error_first_witness :
    memoizeRun
        (fun i => if i = 0 then Except.error (JSValue.str "boom0")
          else Except.error (JSValue.str "boom1")) 2 =
      ([Except.error (JSValue.str "boom0"), Except.error (JSValue.str "boom1")], 2,
        memoInit) :=
  ((memoize_error_first
    (fun i => if i = 0 then Except.error (JSValue.str "boom0")
      else Except.error (JSValue.str "boom1"))
    (JSValue.str "boom0") rfl).2.2.2) (JSValue.str "boom1") rfl

/-- Claim C9: the wrapper returned by memoize(func) tracks cachedness with
the separate isCached flag, so a first outcome of undefined is cached like
any other value: all n >= 1 invocations return undefined, func is invoked
exactly once, and the final closure state has isCached set with undefined
stored. -/
theorem memoize_undefined_cached (func : Nat → Except JSValue JSValue) (n : Nat)
    (hn : 1 ≤ n) (h0 : func 0 = Except.ok JSValue.undefined) :
    memoizeRun func n =
      (List.replicate n (Except.ok JSValue.undefined), 1, ⟨JSValue.undefined, true⟩) := by
  cases n with
  | zero => omega
  | succ m => exact memoizeRun_ok func JSValue.undefined h0 m

theorem memoize_undefined_cached_witness :
    memoizeRun (fun _ => Except.ok JSValue.undefined) 2 =
      (List.replicate 2 (Except.ok JSValue.undefined), 1, ⟨JSValue.undefined, true⟩) :=
  memoize_undefined_cached (fun _ => Except.ok JSValue.undefined) 2 (by decide) rfl

/-- Claim C2: the wrapper returned by retry(func, n) invokes func up to n
times in order; it stops at the first invocation k that does not throw and
returns its result (having made k+1 invocations), and if all n invocations
throw it rethrows the error of the last one, discarding the earlier errors. -/
theorem retry_spec (func : Nat → Except JSValue JSValue) (n : Nat) :
    (∀ k v, k < n → (∀ j, j < k → ∃ e, func j = Except.error e) →
      func k = Except.ok v →
      retryCall func (n : Int) = (Except.ok v, k + 1)) ∧
    (∀ err, 1 ≤ n → (∀ j, j < n → ∃ e, func j = Except.error e) →
      func (n - 1) = Except.error err →
      retryCall func (n : Int) = (Except.error err, n)) := by
  constructor
  · intro k v hk herr hok
    unfold retryCall
    rw [Int.toNat_natCast]
    exact retryLoop_ok func n 0 k JSValue.undefined v (Nat.zero_le k) (by omega)
      (fun j _ hj => herr j hj) hok
  · intro err hn herr hlast
    unfold retryCall
    rw [Int.toNat_natCast]
    have hfail := retryLoop_fail func n 0 JSValue.undefined err hn
      (fun j _ hj => herr j (by omega)) (by rw [show 0 + n - 1 = n - 1 by omega]; exact hlast)
    rw [hfail, show 0 + n = n by omega]

theorem retry_spec_witness :
    retryCall
        (fun j => if j = 0 then Except.error (JSValue.str "e0")
          else Except.ok (JSValue.num 7)) (2 : Int) =
      (Except.ok (JSValue.num 7), 2) :=
  (retry_spec
    (fun j => if j = 0 then Except.error (JSValue.str "e0")
      else Except.ok (JSValue.num 7)) 2).1 1 (JSValue.num 7) (by decide)
    (fun j hj => ⟨JSValue.str "e0", by
      have hj0 : j = 0 := by omega
      subst hj0
      rfl⟩) rfl

/-- Claim C6: for attempts <= 0 the loop body of the wrapper returned by
retry(func, attempts) never executes, so func is never invoked (zero
invocations) and the wrapper throws the uninitialised lastError binding,
i.e. the JavaScript undefined value. -/
theorem retry_nonpos (func : Nat → Except JSValue JSValue) (attempts : Int)
    (h : attempts ≤ 0) :
    retryCall func attempts = (Except.error JSValue.undefined, 0) := by
  unfold retryCall
  rw [Int.toNat_of_nonpos h]
  rfl

theorem retry_nonpos_witness :
    retryCall (fun _ => Except.ok JSValue.null) (-3) =
      (Except.error JSValue.undefined, 0) :=
  retry_nonpos (fun _ => Except.ok JSValue.null) (-3) (by decide)

/-- Claim C3: one invocation of the wrapper returned by logger(func, logFunc)
on which func returns normally invokes logFunc exactly twice, first with
"funcName(argsString) starts" and then with "funcName(argsString) ends",
argsString being the comma-joined JSON serialisation of the arguments,
invokes func exactly once between the two logFunc invocations, and returns
the value of func unchanged; if func throws, the exception propagates and no
"ends" line is emitted. -/
theorem logger_spec (funcName : String)
    (func : List Nat → Heap → Except JSValue JSValue × Heap)
    (logFunc : String → Except JSValue Unit)
    (args : List Nat) (h h2 : Heap) (v e : JSValue) :
    (logFunc (loggerStartMsg funcName h args) = Except.ok () →
      func args h = (Except.ok v, h2) →
      logFunc (loggerEndMsg funcName h args) = Except.ok () →
      loggerRun funcName func logFunc args h =
        (Except.ok v, h2,
          [LoggerEvent.logCall (funcName ++ "(" ++ loggerArgsString h args ++ ") starts"),
            LoggerEvent.funcCall,
            LoggerEvent.logCall (funcName ++ "(" ++ loggerArgsString h args ++ ") ends")])) ∧
    (logFunc (loggerStartMsg funcName h args) = Except.ok () →
      func args h = (Except.error e, h2) →
      loggerRun funcName func logFunc args h =
        (Except.error e, h2,
          [LoggerEvent.logCall (funcName ++ "(" ++ loggerArgsString h args ++ ") starts"),
            LoggerEvent.funcCall])) := by
  constructor
  · intro hstart hfunc hend
    simp only [loggerRun, hstart, hfunc, hend]
    simp [loggerStartMsg, loggerEndMsg]
  · intro hstart hfunc
    simp only [loggerRun, hstart, hfunc]
    simp [loggerStartMsg, loggerEndMsg]

theorem logger_spec_witness :
    loggerRun "cos" (fun _ hh => (Except.ok (JSValue.num (-1)), hh))
        (fun _ => Except.ok ()) [0] [JSValue.num 3] =
      (Except.ok (JSValue.num (-1)), [JSValue.num 3],
        [LoggerEvent.logCall "cos(3) starts", LoggerEvent.funcCall,
          LoggerEvent.logCall "cos(3) ends"]) := by
  have happ := (logger_spec "cos" (fun _ hh => (Except.ok (JSValue.num (-1)), hh))
    (fun _ => Except.ok ()) [0] [JSValue.num 3] [JSValue.num 3]
    (JSValue.num (-1)) JSValue.undefined).1 rfl rfl rfl
  rw [happ]
  rfl

/-- Claim C10: the wrapper returned by logger(func, logFunc) serialises the
arguments once, before the "starts" line and before func runs, so both log
messages use the argument string of the entry heap even when func mutates
the argument cells; and if logFunc throws on the "starts" message the
exception propagates, func is never invoked and no "ends" line is emitted. -/
theorem logger_args_once (funcName : String)
    (func : List Nat → Heap → Except JSValue JSValue × Heap)
    (logFunc : String → Except JSValue Unit)
    (args : List Nat) (h h2 : Heap) (v e : JSValue) :
    (logFunc (loggerStartMsg funcName h args) = Except.error e →
      loggerRun funcName func logFunc args h =
        (Except.error e, h, [LoggerEvent.logCall (loggerStartMsg funcName h args)])) ∧
    (logFunc (loggerStartMsg funcName h args) = Except.ok () →
      func args h = (Except.ok v, h2) →
      logFunc (loggerEndMsg funcName h args) = Except.ok () →
      loggerRun funcName func logFunc args h =
        (Except.ok v, h2,
          [LoggerEvent.logCall (loggerStartMsg funcName h args), LoggerEvent.funcCall,
            LoggerEvent.logCall (funcName ++ "(" ++ loggerArgsString h args ++ ") ends")])) := by
  constructor
  · intro hstart
    simp only [loggerRun, hstart]
  · intro hstart hfunc hend
    simp only [loggerRun, hstart, hfunc, hend]
    simp [loggerEndMsg]

theorem logger_args_once_witness :
    loggerRun "g" (fun _ _ => (Except.ok JSValue.null, [JSValue.num 9]))
        (fun _ => Except.ok ()) [0] [JSValue.num 3] =
      (Except.ok JSValue.null, [JSValue.num 9],
        [LoggerEvent.logCall "g(3) starts", LoggerEvent.funcCall,
          LoggerEvent.logCall "g(3) ends"]) := by
  have happ := (logger_args_once "g" (fun _ _ => (Except.ok JSValue.null, [JSValue.num 9]))
    (fun _ => Except.ok ()) [0] [JSValue.num 3] [JSValue.num 9]
    JSValue.null JSValue.undefined).2 rfl rfl rfl
  rw [happ]
  rfl

/-- The left fold of pol over the enumerated coefficients, started at any
index i and accumulator, adds the spec's polynomial of the remaining
coefficients; N is the total number of coefficients captured by pol. -/
theorem pol_enumFrom (x : Int) (N : Nat) (cs : List Int) :
    ∀ (i : Nat) (acc : Int), i + cs.length = N →
      (List.enumFrom i cs).foldl (fun sum p => sum + p.2 * x ^ (N - p.1 - 1)) acc =
        acc + specPolyVal cs x := by
  induction cs with
  | nil => intro i acc _; simp [specPolyVal]
  | cons c rest ih =>
    intro i acc hlen
    rw [List.enumFrom_cons]
    simp only [List.foldl_cons]
    rw [ih (i + 1) (acc + c * x ^ (N - i - 1)) (by simp at hlen; omega)]
    have hpow : N - i - 1 = rest.length := by simp at hlen; omega
    rw [hpow, specPolyVal]
    ring

/-- The evaluator pol computes exactly the spec's polynomial
c0*x^(n-1) + c1*x^(n-2) + ... + c(n-1). -/
theorem pol_eq_specPolyVal (cs : List Int) (x : Int) :
    pol cs x = specPolyVal cs x := by
  unfold pol
  rw [List.enum_eq_enumFrom]
  have hfold := pol_enumFrom x cs.length cs 0 0 (by omega)
  simpa using hfold

/-- Claim C4: with at least one coefficient, getPolynom returns a unary
function whose value at x is c0*x^(n-1) + c1*x^(n-2) + ... + c(n-1); with
zero coefficients it returns the null sentinel (none) rather than a
function. -/
theorem getPolynom_spec (cs : List Int) (x : Int) :
    getPolynom [] = none ∧
    (cs ≠ [] → ∃ f, getPolynom cs = some f ∧ f x = specPolyVal cs x) := by
  constructor
  · rfl
  · intro hne
    refine ⟨pol cs, ?_, pol_eq_specPolyVal cs x⟩
    simp [getPolynom, List.length_eq_zero, hne]

theorem getPolynom_spec_witness :
    (∃ f, getPolynom [(2 : Int), 3, 5] = some f ∧ f 2 = specPolyVal [2, 3, 5] 2) ∧
      specPolyVal [(2 : Int), 3, 5] 2 = 19 :=
  ⟨(getPolynom_spec [2, 3, 5] 2).2 (by decide), by norm_num [specPolyVal]⟩

/-- Claim C7: the function returned by partialUsingArguments(fn, ...args1)
invokes fn on args1 followed by args2 in that order, so in particular fixing
one argument and supplying three later agrees with fixing all four up
front. -/
theorem partialUsingArguments_spec (fn : List JSValue → JSValue)
    (args1 args2 : List JSValue) :
    partialUsingArguments fn args1 args2 = fn (args1 ++ args2) ∧
    ∀ a b c d : JSValue,
      partialUsingArguments fn [a] [b, c, d] = partialUsingArguments fn [a, b, c, d] [] := by
  constructor
  · rfl
  · intro a b c d
    simp [partialUsingArguments]

/-- Mapping an integer offset over range (m + 1) peels off the head. -/
theorem range_map_int_succ (a : Int) (m : Nat) :
    (List.range (m + 1)).map (fun (i : Nat) => a + (i : Int)) =
      a :: (List.range m).map (fun (i : Nat) => (a + 1) + (i : Int)) := by
  rw [List.range_succ_eq_map, List.map_cons, List.map_map]
  have hfun : ((fun (i : Nat) => a + (i : Int)) ∘ Nat.succ) =
      fun (i : Nat) => (a + 1) + (i : Int) := by
    funext i
    simp only [Function.comp_apply, Nat.succ_eq_add_one]
    push_cast
    ring
  rw [hfun]
  simp

/-- A run of k calls of the first generator alone returns a, a+1, ... -/
theorem runSchedule_replicate_true (k : Nat) :
    ∀ a b : Int, runSchedule a b (List.replicate k true) =
      (List.range k).map (fun (i : Nat) => a + (i : Int)) := by
  induction k with
  | zero => intro a b; simp [runSchedule]
  | succ m ih =>
    intro a b
    rw [List.replicate_succ, range_map_int_succ]
    simp only [runSchedule, idGenCall]
    rw [ih (a + 1) b]

/-- In any interleaved schedule, the calls of the first generator return
a, a+1, ..., independently of the calls of the second. -/
theorem runSchedule_true_calls (l : List Bool) :
    ∀ a b : Int,
      (l.zip (runSchedule a b l)).filterMap (fun p => if p.1 then some p.2 else none) =
        (List.range (l.count true)).map (fun (i : Nat) => a + (i : Int)) := by
  induction l with
  | nil => intro a b; simp [runSchedule]
  | cons hd tl ih =>
    intro a b
    cases hd with
    | true =>
      have hcount : (true :: tl).count true = tl.count true + 1 := by simp
      rw [hcount, range_map_int_succ]
      simp only [runSchedule, idGenCall, List.zip_cons_cons, List.filterMap_cons]
      simp only [if_true]
      rw [ih (a + 1) b]
    | false =>
      have hcount : (false :: tl).count true = tl.count true := by simp
      rw [hcount]
      simp only [runSchedule, idGenCall, List.zip_cons_cons, List.filterMap_cons]
      simp only [Bool.false_eq_true, if_false]
      rw [ih a (b + 1)]

/-- In any interleaved schedule, the calls of the second generator return
b, b+1, ..., independently of the calls of the first. -/
theorem runSchedule_false_calls (l : List Bool) :
    ∀ a b : Int,
      (l.zip (runSchedule a b l)).filterMap (fun p => if p.1 then none else some p.2) =
        (List.range (l.count false)).map (fun (i : Nat) => b + (i : Int)) := by
  induction l with
  | nil => intro a b; simp [runSchedule]
  | cons hd tl ih =>
    intro a b
    cases hd with
    | true =>
      have hcount : (true :: tl).count false = tl.count false := by simp
      rw [hcount]
      simp only [runSchedule, idGenCall, List.zip_cons_cons, List.filterMap_cons]
      simp only [if_true]
      rw [ih (a + 1) b]
    | false =>
      have hcount : (false :: tl).count false = tl.count false + 1 := by simp
      rw [hcount, range_map_int_succ]
      simp only [runSchedule, idGenCall, List.zip_cons_cons, List.filterMap_cons]
      simp only [Bool.false_eq_true, if_false]
      rw [ih a (b + 1)]

/-- Claim C8: k successive calls of the generator constructed from startFrom
a return a, a+1, ..., a+k-1 (so the k-th call returns a + k - 1), and in any
interleaved schedule of two independently constructed generators each
generator still produces its own sequence a, a+1, ... and b, b+1, ...,
unaffected by the calls of the other. -/
theorem getIdGeneratorFunction_spec (a b : Int) (l : List Bool) (k : Nat) :
    runSchedule (getIdGeneratorFunction a) (getIdGeneratorFunction b)
        (List.replicate k true) =
      (List.range k).map (fun (i : Nat) => a + (i : Int)) ∧
    ((l.zip (runSchedule (getIdGeneratorFunction a) (getIdGeneratorFunction b) l)).filterMap
        (fun p => if p.1 then some p.2 else none) =
      (List.range (l.count true)).map (fun (i : Nat) => a + (i : Int))) ∧
    ((l.zip (runSchedule (getIdGeneratorFunction a) (getIdGeneratorFunction b) l)).filterMap
        (fun p => if p.1 then none else some p.2) =
      (List.range (l.count false)).map (fun (i : Nat) => b + (i : Int))) :=
  ⟨runSchedule_replicate_true k a b, runSchedule_true_calls l a b,
    runSchedule_false_calls l a b⟩
